import Mathlib

/-!
Shallow embedding of the hot-tier account storage core from
`src/accounts-db/src/tiered_storage/hot.rs`.

Modelling conventions:
* Rust machine integers become `Nat`; where u32 saturation matters the code
  spells it out (`Nat.min (x + 1) (2 ^ 32 - 1)` for `u32::saturating_add(1)`);
  Rust `usize::saturating_sub` coincides with `Nat` subtraction.
* Fallible Rust functions (`TieredStorageResult`) become `Except`.
* Rust panics (the `assert!` in `get_account_meta_from_offset` and the
  explicit `panic!` calls in the packed-field builders) are modelled as
  `Option`/`none`, distinct from recoverable `Except.error`.
* The collaborators declared out of scope by the format (footer parsing, the
  index-block and owners-block codecs, the optional-fields size computation,
  and the raw mmap primitives `get_pod` / `get_slice`) are uninterpreted
  function fields of the reader state: the reader logic under verification
  treats them as black boxes, exactly as the source does.
-/

namespace HotStorage

/-- Account addresses (`solana_sdk::pubkey::Pubkey`); only equality matters
to the verified code, so an abstract carrier suffices. -/
abbrev Pubkey := Nat

/-- `AccountMetaFlags` is a 32-bit flag word owned by a collaborator; the hot
metadata record only stores and returns it. -/
abbrev AccountMetaFlags := Nat

/-- Error enum `TieredStorageError` (the variants the hot module uses, plus a
generic I/O-style variant standing for errors produced by collaborators). -/
inductive TieredStorageError where
  | OffsetOutOfBounds (offset : Nat) (max : Nat)
  | OffsetAlignmentError (offset : Nat) (alignment : Nat)
  | FileAlreadyExists (path : String)
  | Io (code : Nat)
  deriving Repr, DecidableEq

/-- `MatchAccountOwnerError` from `accounts_file`. -/
inductive MatchAccountOwnerError where
  | NoMatch
  | UnableToLoad
  deriving Repr, DecidableEq

instance {ε α : Type} [DecidableEq ε] [DecidableEq α] : DecidableEq (Except ε α) :=
  fun a b =>
    match a, b with
    | .ok x, .ok y => decidable_of_iff (x = y) (by simp)
    | .error x, .error y => decidable_of_iff (x = y) (by simp)
    | .ok _, .error _ => isFalse (by simp)
    | .error _, .ok _ => isFalse (by simp)

/-- u32 `saturating_add(1)`: clamps at `u32::MAX`. -/
def u32SaturatingAdd1 (n : Nat) : Nat :=
  if n + 1 ≤ 2 ^ 32 - 1 then n + 1 else 2 ^ 32 - 1

/-- `HOT_ACCOUNT_ALIGNMENT` -/
def HOT_ACCOUNT_ALIGNMENT : Nat := 8

/-- `MAX_HOT_ACCOUNT_OFFSET = u32::MAX as usize * HOT_ACCOUNT_ALIGNMENT` -/
def MAX_HOT_ACCOUNT_OFFSET : Nat := (2 ^ 32 - 1) * HOT_ACCOUNT_ALIGNMENT

/-- `MAX_HOT_PADDING` -/
def MAX_HOT_PADDING : Nat := 7

/-- `MAX_HOT_OWNER_OFFSET = OwnerOffset((1 << 29) - 1)` -/
def MAX_HOT_OWNER_OFFSET : Nat := 2 ^ 29 - 1

/-- `std::mem::size_of::<HotAccountMeta>()` (the compile-time assertion in the
source pins it at 8 + 4 + 4 = 16 bytes). -/
def HOT_ACCOUNT_META_SIZE : Nat := 16

/-- `HotAccountOffset(u32)`: a file offset stored divided by the alignment. -/
structure HotAccountOffset where
  val : Nat
  deriving Repr, DecidableEq

/-- `HotAccountOffset::new(offset)`: rejects offsets beyond
`MAX_HOT_ACCOUNT_OFFSET` (checked first), then rejects unaligned offsets,
otherwise stores `offset / HOT_ACCOUNT_ALIGNMENT`. -/
def HotAccountOffset.new (offset : Nat) : Except TieredStorageError HotAccountOffset :=
  if offset > MAX_HOT_ACCOUNT_OFFSET then
    .error (.OffsetOutOfBounds offset MAX_HOT_ACCOUNT_OFFSET)
  else if offset % HOT_ACCOUNT_ALIGNMENT ≠ 0 then
    .error (.OffsetAlignmentError offset HOT_ACCOUNT_ALIGNMENT)
  else
    .ok ⟨offset / HOT_ACCOUNT_ALIGNMENT⟩

/-- `HotAccountOffset::offset()` -/
def HotAccountOffset.offset (o : HotAccountOffset) : Nat :=
  o.val * HOT_ACCOUNT_ALIGNMENT

/-- `HotMetaPackedFields`: a 32-bit word with `padding : B3` in bits 0–2 and
`owner_offset : B29` in bits 3–31 (modular_bitfield places the first field at
the least significant bits). -/
structure HotMetaPackedFields where
  bits : Nat
  deriving Repr, DecidableEq

/-- `HotMetaPackedFields::default()` -/
def HotMetaPackedFields.default : HotMetaPackedFields := ⟨0⟩

/-- Generated accessor `padding()`: bits 0–2. -/
def HotMetaPackedFields.padding (p : HotMetaPackedFields) : Nat :=
  p.bits % 8

/-- Generated accessor `owner_offset()`: bits 3–31. -/
def HotMetaPackedFields.owner_offset (p : HotMetaPackedFields) : Nat :=
  p.bits / 8 % 2 ^ 29

/-- Generated setter `set_padding(v)` for `v` in the 3-bit range (the hot
builders range-check before calling, so only in-range values reach it). -/
def HotMetaPackedFields.set_padding (p : HotMetaPackedFields) (v : Nat) : HotMetaPackedFields :=
  ⟨p.bits / 8 * 8 + v⟩

/-- Generated setter `set_owner_offset(v)` for `v` in the 29-bit range. -/
def HotMetaPackedFields.set_owner_offset (p : HotMetaPackedFields) (v : Nat) : HotMetaPackedFields :=
  ⟨p.bits % 8 + v * 8⟩

/-- `HotAccountMeta`: the 16-byte fixed record (balance, packed word, flags). -/
structure HotAccountMeta where
  lamports : Nat
  packed_fields : HotMetaPackedFields
  flags : AccountMetaFlags
  deriving Repr, DecidableEq

namespace HotAccountMeta

/-- `HotAccountMeta::new()` -/
def new : HotAccountMeta :=
  { lamports := 0, packed_fields := HotMetaPackedFields.default, flags := 0 }

/-- `with_lamports` -/
def with_lamports (m : HotAccountMeta) (lamports : Nat) : HotAccountMeta :=
  { m with lamports := lamports }

/-- `with_account_data_padding`: panics (`none`) when `padding > MAX_HOT_PADDING`. -/
def with_account_data_padding (m : HotAccountMeta) (padding : Nat) : Option HotAccountMeta :=
  if padding > MAX_HOT_PADDING then none
  else some { m with packed_fields := m.packed_fields.set_padding padding }

/-- `with_owner_offset`: panics (`none`) when the index exceeds `MAX_HOT_OWNER_OFFSET`. -/
def with_owner_offset (m : HotAccountMeta) (owner_offset : Nat) : Option HotAccountMeta :=
  if owner_offset > MAX_HOT_OWNER_OFFSET then none
  else some { m with packed_fields := m.packed_fields.set_owner_offset owner_offset }

/-- `with_account_data_size`: hot metadata never stores a data size, so the
builder deliberately ignores its argument. -/
def with_account_data_size (m : HotAccountMeta) (_account_data_size : Nat) : HotAccountMeta :=
  m

/-- `with_flags` -/
def with_flags (m : HotAccountMeta) (flags : AccountMetaFlags) : HotAccountMeta :=
  { m with flags := flags }

/-- Accessor `account_data_padding()` -/
def account_data_padding (m : HotAccountMeta) : Nat :=
  m.packed_fields.padding

/-- Accessor `owner_offset()` -/
def owner_offset (m : HotAccountMeta) : Nat :=
  m.packed_fields.owner_offset

/-- `optional_fields_offset(account_block)`: the block length minus the
optional-fields size derived from the flags by the (out-of-scope) collaborator
`AccountMetaOptionalFields::size_from_flags`, passed in as `sizeFromFlags`.
`Nat` subtraction is exactly Rust's `saturating_sub`. -/
def optional_fields_offset (sizeFromFlags : AccountMetaFlags → Nat)
    (m : HotAccountMeta) (account_block : List UInt8) : Nat :=
  account_block.length - sizeFromFlags m.flags

/-- `account_data_size(account_block)` -/
def account_data_size (sizeFromFlags : AccountMetaFlags → Nat)
    (m : HotAccountMeta) (account_block : List UInt8) : Nat :=
  m.optional_fields_offset sizeFromFlags account_block - m.account_data_padding

/-- `account_data(account_block) = &account_block[..account_data_size]`
(the upper index never exceeds the block length, so the slice is `take`). -/
def account_data (sizeFromFlags : AccountMetaFlags → Nat)
    (m : HotAccountMeta) (account_block : List UInt8) : List UInt8 :=
  account_block.take (m.account_data_size sizeFromFlags account_block)

end HotAccountMeta

/-- `IndexOffset(u32)`: an ordinal position in the index block. -/
structure IndexOffset where
  val : Nat
  deriving Repr, DecidableEq

/-- The footer fields the hot reader consults (`TieredStorageFooter` is a
collaborator; the reader keeps a copy and reads `account_entry_count` and
`index_block_offset`, both unsigned machine integers, here `Nat`). -/
structure TieredStorageFooter where
  account_entry_count : Nat
  index_block_offset : Nat

/-- `TieredReadableAccount` as assembled by `get_account`. -/
structure TieredReadableAccount where
  meta : HotAccountMeta
  address : Pubkey
  owner : Pubkey
  index : Nat
  account_block : List UInt8
  deriving Repr, DecidableEq

/-- `StoredAccountMeta` (only the hot variant occurs here). -/
inductive StoredAccountMeta where
  | Hot (account : TieredReadableAccount)
  deriving Repr, DecidableEq

/-- `HotStorageReader` state: the cached footer plus uninterpreted functions
for the collaborator calls the reader logic makes —
`readMeta o` for `get_pod::<HotAccountMeta>(&self.mmap, o)`,
`readSlice o len` for `get_slice(&self.mmap, o, len)`,
`indexOffset i` for `index_block_format.get_account_offset(mmap, footer, IndexOffset(i))`,
`indexAddress i` for `index_block_format.get_account_address(mmap, footer, IndexOffset(i))`,
`ownerAddress w` for `owners_block_format.get_owner_address(mmap, footer, OwnerOffset(w))`. -/
structure HotStorageReader where
  footer : TieredStorageFooter
  readMeta : Nat → Except TieredStorageError HotAccountMeta
  readSlice : Nat → Nat → Except TieredStorageError (List UInt8)
  indexOffset : Nat → Except TieredStorageError HotAccountOffset
  indexAddress : Nat → Except TieredStorageError Pubkey
  ownerAddress : Nat → Except TieredStorageError Pubkey

namespace HotStorageReader

/-- `num_accounts()` -/
def num_accounts (r : HotStorageReader) : Nat :=
  r.footer.account_entry_count

/-- `get_account_offset(index_offset)` -/
def get_account_offset (r : HotStorageReader) (index_offset : IndexOffset) :
    Except TieredStorageError HotAccountOffset :=
  r.indexOffset index_offset.val

/-- `get_account_address(index)` -/
def get_account_address (r : HotStorageReader) (index : IndexOffset) :
    Except TieredStorageError Pubkey :=
  r.indexAddress index.val

/-- `get_owner_address(owner_offset)` -/
def get_owner_address (r : HotStorageReader) (owner_offset : Nat) :
    Except TieredStorageError Pubkey :=
  r.ownerAddress owner_offset

/-- `get_account_meta_from_offset(account_offset)`: asserts (panic = `none`)
that `offset + size_of::<HotAccountMeta>() ≤ footer.index_block_offset`, then
reinterprets the mapped bytes at that offset (`get_pod`). The Rust
`usize::saturating_add` is plain `Nat` addition. -/
def get_account_meta_from_offset (r : HotStorageReader) (account_offset : HotAccountOffset) :
    Option (Except TieredStorageError HotAccountMeta) :=
  let offset := account_offset.offset
  if offset + HOT_ACCOUNT_META_SIZE ≤ r.footer.index_block_offset then
    some (r.readMeta offset)
  else
    none

/-- `account_matches_owners(account_offset, owners)`: metadata-load failure →
`UnableToLoad`; zero lamports → `NoMatch`; owner-resolution failure →
`UnableToLoad`; otherwise the position of the first matching candidate, or
`NoMatch`. The outer `Option` propagates the bounds-assert panic of
`get_account_meta_from_offset`. -/
def account_matches_owners (r : HotStorageReader) (account_offset : HotAccountOffset)
    (owners : List Pubkey) : Option (Except MatchAccountOwnerError Nat) :=
  match r.get_account_meta_from_offset account_offset with
  | none => none
  | some (.error _) => some (.error .UnableToLoad)
  | some (.ok account_meta) =>
    if account_meta.lamports = 0 then
      some (.error .NoMatch)
    else
      match r.get_owner_address account_meta.owner_offset with
      | .error _ => some (.error .UnableToLoad)
      | .ok account_owner =>
        match owners.findIdx? (fun candidate => candidate = account_owner) with
        | some position => some (.ok position)
        | none => some (.error .NoMatch)

/-- `get_account_block_size(account_offset, index_offset)`: the block ends at
the index-block start when `index_offset.0.saturating_add(1) ==
account_entry_count` (u32 saturation spelt as `Nat.min`), else at the next
ordinal's offset; the size is the ending offset minus the meta offset minus
the 16-byte meta size, each subtraction saturating. -/
def get_account_block_size (r : HotStorageReader) (account_offset : HotAccountOffset)
    (index_offset : IndexOffset) : Except TieredStorageError Nat :=
  let account_meta_offset := account_offset.offset
  let next := u32SaturatingAdd1 index_offset.val
  match (if next = r.footer.account_entry_count then
           .ok r.footer.index_block_offset
         else
           (r.indexOffset next).map HotAccountOffset.offset :
         Except TieredStorageError Nat) with
  | .error e => .error e
  | .ok account_block_ending_offset =>
    .ok (account_block_ending_offset - account_meta_offset - HOT_ACCOUNT_META_SIZE)

/-- `get_account_block(account_offset, index_offset)`: the mapped slice right
after the metadata record, of the derived block size. -/
def get_account_block (r : HotStorageReader) (account_offset : HotAccountOffset)
    (index_offset : IndexOffset) : Except TieredStorageError (List UInt8) :=
  match r.get_account_block_size account_offset index_offset with
  | .error e => .error e
  | .ok size => r.readSlice (account_offset.offset + HOT_ACCOUNT_META_SIZE) size

/-- `get_account(index_offset)`: `Ok(None)` at or past the entry count, else
the assembled read-only view paired with `index_offset.0.saturating_add(1)`.
The outer `Option` propagates the bounds-assert panic of the metadata read. -/
def get_account (r : HotStorageReader) (index_offset : IndexOffset) :
    Option (Except TieredStorageError (Option (StoredAccountMeta × Nat))) :=
  if r.footer.account_entry_count ≤ index_offset.val then
    some (.ok none)
  else
    match r.get_account_offset index_offset with
    | .error e => some (.error e)
    | .ok account_offset =>
      match r.get_account_meta_from_offset account_offset with
      | none => none
      | some (.error e) => some (.error e)
      | some (.ok meta) =>
        match r.get_account_address index_offset with
        | .error e => some (.error e)
        | .ok address =>
          match r.get_owner_address meta.owner_offset with
          | .error e => some (.error e)
          | .ok owner =>
            match r.get_account_block account_offset index_offset with
            | .error e => some (.error e)
            | .ok account_block =>
              some (.ok (some
                (StoredAccountMeta.Hot
                  { meta := meta, address := address, owner := owner,
                    index := index_offset.val, account_block := account_block },
                 u32SaturatingAdd1 index_offset.val)))

end HotStorageReader

/-- Modelled from the spec: `TieredStorageFile::new_writable` (the file
module is not part of the sources here). Per the spec, `create(path)` opens
the path for exclusive sequential writing and fails if the path already names
an existing file, with no truncation or overwrite. The filesystem is a list
of existing paths; success returns the handle and the filesystem now
containing the path. -/
structure TieredStorageFile where
  path : String
  deriving Repr, DecidableEq

/-- Modelled from the spec: creating the writable file fails on an existing
path, otherwise creates it. -/
def TieredStorageFile.new_writable (fs : List String) (path : String) :
    Except TieredStorageError (TieredStorageFile × List String) :=
  if path ∈ fs then
    .error (.FileAlreadyExists path)
  else
    .ok (⟨path⟩, path :: fs)

/-- `HotStorageWriter` -/
structure HotStorageWriter where
  storage : TieredStorageFile
  deriving Repr, DecidableEq

/-- `HotStorageWriter::new(file_path)`: delegates to
`TieredStorageFile::new_writable`. -/
def HotStorageWriter.new (fs : List String) (file_path : String) :
    Except TieredStorageError (HotStorageWriter × List String) :=
  match TieredStorageFile.new_writable fs file_path with
  | .error e => .error e
  | .ok (storage, fs') => .ok (⟨storage⟩, fs')

/-! Concrete sample data used by the claim witnesses: a two-record store with
records at byte offsets 0 and 32, index block at byte offset 64. -/

/-- Sample metadata record: 5 lamports, 1 padding byte, owner index 1. -/
def sampleMeta : HotAccountMeta :=
  { lamports := 5, packed_fields := ⟨9⟩, flags := 0 }

/-- Sample metadata record with zero lamports and owner index 2. -/
def sampleMetaZero : HotAccountMeta :=
  { lamports := 0, packed_fields := ⟨16⟩, flags := 0 }

/-- Sample reader over the two-record store. -/
def sampleReader : HotStorageReader :=
  { footer := { account_entry_count := 2, index_block_offset := 64 }
    readMeta := fun o =>
      if o = 0 then .ok sampleMeta
      else if o = 32 then .ok sampleMetaZero
      else .error (.Io 0)
    readSlice := fun _ len => .ok (List.replicate len 7)
    indexOffset := fun i =>
      if i = 0 then .ok ⟨0⟩ else if i = 1 then .ok ⟨4⟩ else .error (.Io 1)
    indexAddress := fun i => .ok (100 + i)
    ownerAddress := fun w => .ok (200 + w) }

/-- Claim C4 (amended): `HotAccountOffset::new(o)` succeeds exactly for byte
offsets that are multiples of 8 and at most `u32::MAX * 8`, and `offset()` on
the result returns exactly `o`; `new(o)` fails with `OffsetOutOfBounds`
(carrying the value and the limit) for `o` greater than `u32::MAX * 8`, and
with `OffsetAlignmentError` (carrying the value and the alignment) for `o`
within the limit that is not a multiple of 8 — the range check runs first, so
an oversized misaligned offset reports the out-of-bounds kind. -/
theorem hot_account_offset_codec_spec (o : Nat) :
    ((∃ v, HotAccountOffset.new o = .ok v)
        ↔ (o % HOT_ACCOUNT_ALIGNMENT = 0 ∧ o ≤ MAX_HOT_ACCOUNT_OFFSET))
  ∧ (∀ v, HotAccountOffset.new o = .ok v → v.offset = o)
  ∧ (MAX_HOT_ACCOUNT_OFFSET < o →
      HotAccountOffset.new o
        = .error (.OffsetOutOfBounds o MAX_HOT_ACCOUNT_OFFSET))
  ∧ (o ≤ MAX_HOT_ACCOUNT_OFFSET → o % HOT_ACCOUNT_ALIGNMENT ≠ 0 →
      HotAccountOffset.new o
        = .error (.OffsetAlignmentError o HOT_ACCOUNT_ALIGNMENT)) := by
  simp only [HotAccountOffset.new, HotAccountOffset.offset, HOT_ACCOUNT_ALIGNMENT,
    MAX_HOT_ACCOUNT_OFFSET]
  refine ⟨⟨?_, ?_⟩, ?_, ?_, ?_⟩
  · rintro ⟨v, hv⟩
    split_ifs at hv with h1 h2
    exact ⟨by omega, by omega⟩
  · rintro ⟨h2, h1⟩
    exact ⟨⟨o / 8⟩, by rw [if_neg (by omega), if_neg (by omega)]⟩
  · intro v hv
    split_ifs at hv with h1 h2
    cases hv
    show o / 8 * 8 = o
    omega
  · intro h1
    rw [if_pos h1]
  · intro h1 h2
    rw [if_neg (by omega), if_pos h2]

/-- Claim C4 counterexample: at `o = u32::MAX * 8 + 1` (not a multiple of 8)
the codec reports the out-of-bounds kind, not the alignment kind, refuting the
claim that every misaligned offset fails with the alignment error. -/
theorem hot_account_offset_codec_counterexample :
    (MAX_HOT_ACCOUNT_OFFSET + 1) % HOT_ACCOUNT_ALIGNMENT ≠ 0
  ∧ HotAccountOffset.new (MAX_HOT_ACCOUNT_OFFSET + 1)
      = .error (.OffsetOutOfBounds (MAX_HOT_ACCOUNT_OFFSET + 1) MAX_HOT_ACCOUNT_OFFSET)
  ∧ HotAccountOffset.new (MAX_HOT_ACCOUNT_OFFSET + 1)
      ≠ .error (.OffsetAlignmentError (MAX_HOT_ACCOUNT_OFFSET + 1) HOT_ACCOUNT_ALIGNMENT) := by
  exact ⟨by decide, by decide, by decide⟩

/-- Claim C4 witness: the amended theorem applied at 24 (valid), 34359738368
(beyond the limit), and 20 (in range, misaligned). -/
theorem hot_account_offset_codec_spec_witness :
    HotAccountOffset.new 24 = .ok ⟨3⟩
  ∧ (⟨3⟩ : HotAccountOffset).offset = 24
  ∧ HotAccountOffset.new 34359738368
      = .error (.OffsetOutOfBounds 34359738368 MAX_HOT_ACCOUNT_OFFSET)
  ∧ HotAccountOffset.new 20 = .error (.OffsetAlignmentError 20 HOT_ACCOUNT_ALIGNMENT) := by
  refine ⟨by decide, (hot_account_offset_codec_spec 24).2.1 ⟨3⟩ (by decide),
    (hot_account_offset_codec_spec 34359738368).2.2.1 (by decide),
    (hot_account_offset_codec_spec 20).2.2.2 (by decide) (by decide)⟩

/-- Claim C5: building a metadata record with `with_account_data_padding(p)`
(p ≤ 7) and `with_owner_offset(w)` (w ≤ 2^29 − 1), in either order, reads back
exactly `p` and `w`; `with_account_data_padding(8)` and
`with_owner_offset(2^29)` panic at construction time. -/
theorem packed_fields_roundtrip_spec (p w : Nat)
    (hp : p ≤ MAX_HOT_PADDING) (hw : w ≤ MAX_HOT_OWNER_OFFSET) :
    (((HotAccountMeta.new.with_account_data_padding p).bind
        (fun m1 => m1.with_owner_offset w)).map HotAccountMeta.account_data_padding
      = some p)
  ∧ (((HotAccountMeta.new.with_account_data_padding p).bind
        (fun m1 => m1.with_owner_offset w)).map HotAccountMeta.owner_offset
      = some w)
  ∧ (((HotAccountMeta.new.with_owner_offset w).bind
        (fun m1 => m1.with_account_data_padding p)).map HotAccountMeta.account_data_padding
      = some p)
  ∧ (((HotAccountMeta.new.with_owner_offset w).bind
        (fun m1 => m1.with_account_data_padding p)).map HotAccountMeta.owner_offset
      = some w)
  ∧ (∀ m : HotAccountMeta, m.with_account_data_padding (MAX_HOT_PADDING + 1) = none)
  ∧ (∀ m : HotAccountMeta, m.with_owner_offset (MAX_HOT_OWNER_OFFSET + 1) = none) := by
  simp only [MAX_HOT_PADDING, MAX_HOT_OWNER_OFFSET] at hp hw
  have hp8 : ¬p > MAX_HOT_PADDING := by simp only [MAX_HOT_PADDING]; omega
  have hw29 : ¬w > MAX_HOT_OWNER_OFFSET := by simp only [MAX_HOT_OWNER_OFFSET]; omega
  refine ⟨?_, ?_, ?_, ?_, ?_, ?_⟩
  · simp [HotAccountMeta.new, HotAccountMeta.with_account_data_padding,
      HotAccountMeta.with_owner_offset, HotMetaPackedFields.default,
      HotMetaPackedFields.set_padding, HotMetaPackedFields.set_owner_offset,
      HotAccountMeta.account_data_padding, HotMetaPackedFields.padding, hp8, hw29]
    omega
  · simp [HotAccountMeta.new, HotAccountMeta.with_account_data_padding,
      HotAccountMeta.with_owner_offset, HotMetaPackedFields.default,
      HotMetaPackedFields.set_padding, HotMetaPackedFields.set_owner_offset,
      HotAccountMeta.owner_offset, HotMetaPackedFields.owner_offset, hp8, hw29]
    omega
  · simp [HotAccountMeta.new, HotAccountMeta.with_account_data_padding,
      HotAccountMeta.with_owner_offset, HotMetaPackedFields.default,
      HotMetaPackedFields.set_padding, HotMetaPackedFields.set_owner_offset,
      HotAccountMeta.account_data_padding, HotMetaPackedFields.padding, hp8, hw29]
    omega
  · simp [HotAccountMeta.new, HotAccountMeta.with_account_data_padding,
      HotAccountMeta.with_owner_offset, HotMetaPackedFields.default,
      HotMetaPackedFields.set_padding, HotMetaPackedFields.set_owner_offset,
      HotAccountMeta.owner_offset, HotMetaPackedFields.owner_offset, hp8, hw29]
    omega
  · intro m
    simp [HotAccountMeta.with_account_data_padding, MAX_HOT_PADDING]
  · intro m
    simp [HotAccountMeta.with_owner_offset, MAX_HOT_OWNER_OFFSET]

/-- Claim C5 witness: the round-trip theorem applied at padding 5 and owner
index 0x1fef1234. -/
theorem packed_fields_roundtrip_spec_witness :
    (((HotAccountMeta.new.with_account_data_padding 5).bind
        (fun m1 => m1.with_owner_offset 535958068)).map HotAccountMeta.account_data_padding
      = some 5)
  ∧ (((HotAccountMeta.new.with_account_data_padding 5).bind
        (fun m1 => m1.with_owner_offset 535958068)).map HotAccountMeta.owner_offset
      = some 535958068)
  ∧ HotAccountMeta.new.with_account_data_padding (MAX_HOT_PADDING + 1) = none
  ∧ HotAccountMeta.new.with_owner_offset (MAX_HOT_OWNER_OFFSET + 1) = none := by
  have h := packed_fields_roundtrip_spec 5 535958068 (by decide) (by decide)
  exact ⟨h.1, h.2.1, h.2.2.2.2.1 HotAccountMeta.new, h.2.2.2.2.2 HotAccountMeta.new⟩

/-- Claim C8: `with_account_data_size` accepts its argument and is a no-op:
the hot format never encodes the data length directly. -/
theorem with_account_data_size_noop_spec (m : HotAccountMeta) (s : Nat) :
    m.with_account_data_size s = m :=
  rfl

/-- Claim C10: each builder touches only its own field — `with_lamports`
leaves the packed word and flags unchanged; `with_account_data_padding` (for
padding ≤ 7) leaves lamports, the owner index, and flags unchanged while
setting the padding; `with_owner_offset` (for index ≤ 2^29 − 1) leaves
lamports, the padding, and flags unchanged while setting the owner index;
`with_flags` leaves lamports and the packed word unchanged. -/
theorem builder_frame_spec (m : HotAccountMeta) (l : Nat) (f : AccountMetaFlags)
    (p w : Nat) (hp : p ≤ MAX_HOT_PADDING) (hw : w ≤ MAX_HOT_OWNER_OFFSET) :
    ((m.with_lamports l).packed_fields = m.packed_fields
      ∧ (m.with_lamports l).flags = m.flags ∧ (m.with_lamports l).lamports = l)
  ∧ ((m.with_account_data_padding p).map HotAccountMeta.lamports = some m.lamports
      ∧ (m.with_account_data_padding p).map HotAccountMeta.owner_offset = some m.owner_offset
      ∧ (m.with_account_data_padding p).map HotAccountMeta.flags = some m.flags
      ∧ (m.with_account_data_padding p).map HotAccountMeta.account_data_padding = some p)
  ∧ ((m.with_owner_offset w).map HotAccountMeta.lamports = some m.lamports
      ∧ (m.with_owner_offset w).map HotAccountMeta.account_data_padding
          = some m.account_data_padding
      ∧ (m.with_owner_offset w).map HotAccountMeta.flags = some m.flags
      ∧ (m.with_owner_offset w).map HotAccountMeta.owner_offset = some w)
  ∧ ((m.with_flags f).lamports = m.lamports
      ∧ (m.with_flags f).packed_fields = m.packed_fields ∧ (m.with_flags f).flags = f) := by
  simp only [MAX_HOT_PADDING, MAX_HOT_OWNER_OFFSET] at hp hw
  have hp8 : ¬p > MAX_HOT_PADDING := by simp only [MAX_HOT_PADDING]; omega
  have hw29 : ¬w > MAX_HOT_OWNER_OFFSET := by simp only [MAX_HOT_OWNER_OFFSET]; omega
  refine ⟨⟨rfl, rfl, rfl⟩, ⟨?_, ?_, ?_, ?_⟩, ⟨?_, ?_, ?_, ?_⟩, rfl, rfl, rfl⟩
  · simp [HotAccountMeta.with_account_data_padding, hp8]
  · simp [HotAccountMeta.with_account_data_padding, hp8, HotAccountMeta.owner_offset,
      HotMetaPackedFields.owner_offset, HotMetaPackedFields.set_padding]
    omega
  · simp [HotAccountMeta.with_account_data_padding, hp8]
  · simp [HotAccountMeta.with_account_data_padding, hp8, HotAccountMeta.account_data_padding,
      HotMetaPackedFields.padding, HotMetaPackedFields.set_padding]
    omega
  · simp [HotAccountMeta.with_owner_offset, hw29]
  · simp [HotAccountMeta.with_owner_offset, hw29, HotAccountMeta.account_data_padding,
      HotMetaPackedFields.padding, HotMetaPackedFields.set_owner_offset]
  · simp [HotAccountMeta.with_owner_offset, hw29]
  · simp [HotAccountMeta.with_owner_offset, hw29, HotAccountMeta.owner_offset,
      HotMetaPackedFields.owner_offset, HotMetaPackedFields.set_owner_offset]
    omega

/-- Claim C10 witness: the frame theorem applied at a concrete record with
lamports 11, packed word 77, flags 4, setting lamports 42, flags 9,
padding 3, owner index 6. -/
theorem builder_frame_spec_witness :
    ((HotAccountMeta.mk 11 ⟨77⟩ 4).with_lamports 42).packed_fields = ⟨77⟩
  ∧ ((HotAccountMeta.mk 11 ⟨77⟩ 4).with_account_data_padding 3).map
        HotAccountMeta.lamports = some 11
  ∧ ((HotAccountMeta.mk 11 ⟨77⟩ 4).with_owner_offset 6).map
        HotAccountMeta.account_data_padding
      = some (HotAccountMeta.mk 11 ⟨77⟩ 4).account_data_padding := by
  have h := builder_frame_spec (HotAccountMeta.mk 11 ⟨77⟩ 4) 42 9 3 6
    (by decide) (by decide)
  exact ⟨h.1.1, h.2.1.1, h.2.2.1.2.1⟩

/-- Claim C6: over any caller-supplied account block and any optional-fields
size function, `optional_fields_offset` is the block length minus the
optional-fields size of the flags (saturating, never past the block length),
`account_data_size` is that offset minus the padding count (saturating), and
`account_data` is exactly the first `account_data_size` bytes of the block. -/
theorem account_block_slicing_spec (sizeFromFlags : AccountMetaFlags → Nat)
    (m : HotAccountMeta) (block : List UInt8) :
    m.optional_fields_offset sizeFromFlags block
        = block.length - sizeFromFlags m.flags
  ∧ m.optional_fields_offset sizeFromFlags block ≤ block.length
  ∧ m.account_data_size sizeFromFlags block
        = m.optional_fields_offset sizeFromFlags block - m.account_data_padding
  ∧ m.account_data_size sizeFromFlags block ≤ m.optional_fields_offset sizeFromFlags block
  ∧ (m.account_data sizeFromFlags block).length = m.account_data_size sizeFromFlags block
  ∧ (∀ j, j < m.account_data_size sizeFromFlags block →
      (m.account_data sizeFromFlags block)[j]? = block[j]?) := by
  have hoff : m.optional_fields_offset sizeFromFlags block ≤ block.length :=
    Nat.sub_le _ _
  have hsize : m.account_data_size sizeFromFlags block
      ≤ m.optional_fields_offset sizeFromFlags block := Nat.sub_le _ _
  refine ⟨rfl, hoff, rfl, hsize, ?_, ?_⟩
  · simp only [HotAccountMeta.account_data, List.length_take]
    omega
  · intro j hj
    simp only [HotAccountMeta.account_data]
    exact List.getElem?_take_of_lt hj

/-- Claim C6 witness: the slicing theorem applied with the identity size
function, a record with padding 1 and flag word 2, and a six-byte block. -/
theorem account_block_slicing_spec_witness :
    HotAccountMeta.account_data_size (fun f => f) (HotAccountMeta.mk 0 ⟨9⟩ 2)
        [10, 20, 30, 40, 50, 60] = 3
  ∧ HotAccountMeta.account_data (fun f => f) (HotAccountMeta.mk 0 ⟨9⟩ 2)
        [10, 20, 30, 40, 50, 60] = [10, 20, 30]
  ∧ (HotAccountMeta.account_data (fun f => f) (HotAccountMeta.mk 0 ⟨9⟩ 2)
        [10, 20, 30, 40, 50, 60])[1]? = some 20 := by
  refine ⟨by decide, by decide, ?_⟩
  have h := (account_block_slicing_spec (fun f => f) (HotAccountMeta.mk 0 ⟨9⟩ 2)
    [10, 20, 30, 40, 50, 60]).2.2.2.2.2 1 (by decide)
  rw [h]
  decide

/-- Helper: when the bounds assertion holds, the metadata read is exactly the
mapped `get_pod` read at the byte offset. -/
theorem get_meta_eq_of_le {r : HotStorageReader} {ao : HotAccountOffset}
    (h : ao.offset + HOT_ACCOUNT_META_SIZE ≤ r.footer.index_block_offset) :
    r.get_account_meta_from_offset ao = some (r.readMeta ao.offset) := by
  simp [HotStorageReader.get_account_meta_from_offset, h]

/-- Claim C7: `get_account_meta_from_offset(offset)` panics exactly when
`offset + 16` exceeds the footer's index-block start offset, and otherwise
reinterprets the mapped bytes at that offset as the metadata record — the
bound checked is the index-block boundary and nothing looser. -/
theorem meta_bounds_check_spec (r : HotStorageReader) (ao : HotAccountOffset) :
    (r.get_account_meta_from_offset ao = none
        ↔ r.footer.index_block_offset < ao.offset + HOT_ACCOUNT_META_SIZE)
  ∧ (ao.offset + HOT_ACCOUNT_META_SIZE ≤ r.footer.index_block_offset →
      r.get_account_meta_from_offset ao = some (r.readMeta ao.offset)) := by
  constructor
  · simp only [HotStorageReader.get_account_meta_from_offset]
    by_cases h : ao.offset + HOT_ACCOUNT_META_SIZE ≤ r.footer.index_block_offset
    · simp [h]
    · simp [h]
      omega
  · exact fun h => get_meta_eq_of_le h

/-- Claim C7 witness: the bounds theorem applied to the sample reader at a
valid offset (0) and at an offset whose record would cross the index-block
boundary (56 + 16 > 64). -/
theorem meta_bounds_check_spec_witness :
    sampleReader.get_account_meta_from_offset ⟨0⟩ = some (.ok sampleMeta)
  ∧ sampleReader.get_account_meta_from_offset ⟨7⟩ = none := by
  constructor
  · have h := (meta_bounds_check_spec sampleReader ⟨0⟩).2 (by decide)
    rw [h]
    decide
  · exact (meta_bounds_check_spec sampleReader ⟨7⟩).1.mpr (by decide)

/-- Claim C3: `account_matches_owners(offset, owners)` (with the metadata
bounds check passing, so the call returns): a failing metadata read yields
`UnableToLoad`; a zero-lamports account yields `NoMatch` whatever the
candidates; a failing owner-address resolution yields `UnableToLoad`;
otherwise the result is the position of the first candidate equal to the
owner address, or `NoMatch` when no candidate equals it. -/
theorem account_matches_owners_spec (r : HotStorageReader) (ao : HotAccountOffset)
    (owners : List Pubkey)
    (hb : ao.offset + HOT_ACCOUNT_META_SIZE ≤ r.footer.index_block_offset) :
    (∀ e, r.readMeta ao.offset = .error e →
        r.account_matches_owners ao owners = some (.error .UnableToLoad))
  ∧ (∀ meta, r.readMeta ao.offset = .ok meta → meta.lamports = 0 →
        r.account_matches_owners ao owners = some (.error .NoMatch))
  ∧ (∀ meta e, r.readMeta ao.offset = .ok meta → meta.lamports ≠ 0 →
        r.ownerAddress meta.owner_offset = .error e →
        r.account_matches_owners ao owners = some (.error .UnableToLoad))
  ∧ (∀ meta addr, r.readMeta ao.offset = .ok meta → meta.lamports ≠ 0 →
        r.ownerAddress meta.owner_offset = .ok addr →
        (addr ∈ owners →
            r.account_matches_owners ao owners
              = some (.ok (owners.findIdx (fun candidate => candidate = addr)))
          ∧ owners[owners.findIdx (fun candidate => candidate = addr)]? = some addr
          ∧ (∀ k, k < owners.findIdx (fun candidate => candidate = addr) →
              owners[k]? ≠ some addr))
      ∧ (addr ∉ owners →
            r.account_matches_owners ao owners = some (.error .NoMatch))) := by
  refine ⟨?_, ?_, ?_, ?_⟩
  · intro e he
    simp [HotStorageReader.account_matches_owners, get_meta_eq_of_le hb, he]
  · intro meta hm h0
    simp [HotStorageReader.account_matches_owners, get_meta_eq_of_le hb, hm, h0]
  · intro meta e hm h0 he
    simp [HotStorageReader.account_matches_owners, get_meta_eq_of_le hb, hm, h0,
      HotStorageReader.get_owner_address, he]
  · intro meta addr hm h0 ha
    constructor
    · intro hmem
      have hfind : owners.findIdx? (fun candidate => candidate = addr)
          = some (owners.findIdx (fun candidate => candidate = addr)) :=
        List.findIdx?_eq_some_of_exists ⟨addr, hmem, by simp⟩
      obtain ⟨hlt, hp, hbefore⟩ := List.findIdx?_eq_some_iff_getElem.mp hfind
      refine ⟨?_, ?_, ?_⟩
      · simp [HotStorageReader.account_matches_owners, get_meta_eq_of_le hb, hm, h0,
          HotStorageReader.get_owner_address, ha, hfind]
      · rw [List.getElem?_eq_getElem hlt]
        simpa using hp
      · intro k hk
        have hklt : k < owners.length := lt_trans hk hlt
        rw [List.getElem?_eq_getElem hklt]
        have := hbefore k hk
        simp only [decide_eq_true_eq] at this
        simpa using this
    · intro hmem
      have hfind : owners.findIdx? (fun candidate => candidate = addr) = none := by
        rw [List.findIdx?_eq_none_iff]
        intro x hx
        simp only [decide_eq_false_iff_not]
        exact fun h => hmem (h ▸ hx)
      simp [HotStorageReader.account_matches_owners, get_meta_eq_of_le hb, hm, h0,
        HotStorageReader.get_owner_address, ha, hfind]

/-- Claim C3 witness: the owner-matching theorem applied to the sample reader
at the first record (5 lamports, owner address 201): candidates `[7, 201, 9]`
match at position 1; candidates `[7, 9]` yield no match. -/
theorem account_matches_owners_spec_witness :
    sampleReader.account_matches_owners ⟨0⟩ [7, 201, 9] = some (.ok 1)
  ∧ sampleReader.account_matches_owners ⟨0⟩ [7, 9] = some (.error .NoMatch) := by
  constructor
  · have h := (((account_matches_owners_spec sampleReader ⟨0⟩ [7, 201, 9] (by decide)).2.2.2
      sampleMeta 201 (by decide) (by decide) (by decide)).1 (by decide)).1
    exact h.trans (by decide)
  · exact ((account_matches_owners_spec sampleReader ⟨0⟩ [7, 9] (by decide)).2.2.2
      sampleMeta 201 (by decide) (by decide) (by decide)).2 (by decide)

/-- Claim C2: for an account at byte offset `o` with in-range ordinal `i`,
`get_account_block_size` returns `upper_bound − o − 16` with saturating
subtraction, where the upper bound is the index-block start offset when
`i + 1` equals the record count and otherwise the byte offset of ordinal
`i + 1` from the index block (an index-block failure propagates). -/
theorem account_block_size_spec (r : HotStorageReader) (ao : HotAccountOffset)
    (i : IndexOffset) (hi : i.val < r.footer.account_entry_count)
    (hc : r.footer.account_entry_count < 2 ^ 32) :
    (i.val + 1 = r.footer.account_entry_count →
        r.get_account_block_size ao i
          = .ok (r.footer.index_block_offset - ao.offset - HOT_ACCOUNT_META_SIZE))
  ∧ (i.val + 1 ≠ r.footer.account_entry_count →
        ∀ nxt, r.indexOffset (i.val + 1) = .ok nxt →
          r.get_account_block_size ao i
            = .ok (nxt.offset - ao.offset - HOT_ACCOUNT_META_SIZE))
  ∧ (i.val + 1 ≠ r.footer.account_entry_count →
        ∀ e, r.indexOffset (i.val + 1) = .error e →
          r.get_account_block_size ao i = .error e) := by
  have hsat : u32SaturatingAdd1 i.val = i.val + 1 := by
    simp only [u32SaturatingAdd1]
    rw [if_pos (by omega)]
  refine ⟨?_, ?_, ?_⟩
  · intro hlast
    simp [HotStorageReader.get_account_block_size, hsat, hlast]
  · intro hne nxt hnxt
    simp [HotStorageReader.get_account_block_size, hsat, hne, hnxt, Except.map]
  · intro hne e he
    simp [HotStorageReader.get_account_block_size, hsat, hne, he, Except.map]

/-- Claim C2 witness: the block-size theorem applied to the sample reader:
ordinal 0 (next record at byte 32) and last ordinal 1 (index block at byte
64), both yielding 16-byte blocks. -/
theorem account_block_size_spec_witness :
    sampleReader.get_account_block_size ⟨0⟩ ⟨0⟩ = .ok 16
  ∧ sampleReader.get_account_block_size ⟨4⟩ ⟨1⟩ = .ok 16 := by
  constructor
  · have h := (account_block_size_spec sampleReader ⟨0⟩ ⟨0⟩ (by decide) (by decide)).2.1
      (by decide) ⟨4⟩ (by decide)
    exact h.trans (by decide)
  · have h := (account_block_size_spec sampleReader ⟨4⟩ ⟨1⟩ (by decide) (by decide)).1
      (by decide)
    exact h.trans (by decide)

/-- Claim C1: `get_account(i)` returns `Ok(None)` exactly when `i` is at
least the footer's record count; for `i` below the count, when every
underlying read succeeds, it returns the assembled read-only view (metadata,
address, owner, and the account block obtained through the block-size
computation) paired with `i + 1`, so that repeated calls enumerate the
records in storage order and terminate at the count. -/
theorem get_account_enumeration_spec (r : HotStorageReader) (i : IndexOffset)
    (hc : r.footer.account_entry_count < 2 ^ 32) :
    (r.get_account i = some (.ok none) ↔ r.footer.account_entry_count ≤ i.val)
  ∧ (∀ ao meta address owner block,
        i.val < r.footer.account_entry_count →
        r.get_account_offset i = .ok ao →
        r.get_account_meta_from_offset ao = some (.ok meta) →
        r.get_account_address i = .ok address →
        r.get_owner_address meta.owner_offset = .ok owner →
        r.get_account_block ao i = .ok block →
        r.get_account i
          = some (.ok (some
              (StoredAccountMeta.Hot
                { meta := meta, address := address, owner := owner,
                  index := i.val, account_block := block },
               i.val + 1)))) := by
  constructor
  · constructor
    · intro h
      by_cases hle : r.footer.account_entry_count ≤ i.val
      · exact hle
      · exfalso
        simp only [HotStorageReader.get_account, if_neg hle] at h
        split at h
        · simp at h
        · split at h
          · simp at h
          · simp at h
          · split at h
            · simp at h
            · split at h
              · simp at h
              · split at h
                · simp at h
                · simp at h
    · intro h
      simp [HotStorageReader.get_account, h]
  · intro ao meta address owner block hlt hao hmeta haddr howner hblock
    have hle : ¬r.footer.account_entry_count ≤ i.val := by omega
    have hsat : u32SaturatingAdd1 i.val = i.val + 1 := by
      simp only [u32SaturatingAdd1]
      rw [if_pos (by omega)]
    simp [HotStorageReader.get_account, hle, hao, hmeta, haddr, howner, hblock, hsat]

/-- Claim C1 witness: the enumeration theorem applied to the sample reader at
ordinal 0 (full view with next ordinal 1) and at ordinal 2 (= record count,
the termination signal). -/
theorem get_account_enumeration_spec_witness :
    sampleReader.get_account ⟨0⟩
      = some (.ok (some
          (StoredAccountMeta.Hot
            { meta := sampleMeta, address := 100, owner := 201,
              index := 0, account_block := List.replicate 16 7 },
           1)))
  ∧ sampleReader.get_account ⟨2⟩ = some (.ok none) := by
  constructor
  · have h := (get_account_enumeration_spec sampleReader ⟨0⟩ (by decide)).2
      ⟨0⟩ sampleMeta 100 201 (List.replicate 16 7)
      (by decide) (by decide) (by decide) (by decide) (by decide) (by decide)
    exact h.trans (by decide)
  · exact (get_account_enumeration_spec sampleReader ⟨2⟩ (by decide)).1.mpr (by decide)

/-- Claim C9 (spec-modelled collaborator): creating a writer on a fresh path
succeeds and records the file; creating one on an existing path fails with
the already-exists error and no overwrite, so of two writers created in
sequence on one path the first succeeds and the second fails. -/
theorem writer_exclusive_create_spec (fs : List String) (path : String) :
    (path ∉ fs →
        HotStorageWriter.new fs path = .ok (⟨⟨path⟩⟩, path :: fs)
      ∧ HotStorageWriter.new (path :: fs) path = .error (.FileAlreadyExists path))
  ∧ (path ∈ fs → HotStorageWriter.new fs path = .error (.FileAlreadyExists path)) := by
  constructor
  · intro h
    constructor
    · simp [HotStorageWriter.new, TieredStorageFile.new_writable, h]
    · simp [HotStorageWriter.new, TieredStorageFile.new_writable]
  · intro h
    simp [HotStorageWriter.new, TieredStorageFile.new_writable, h]

/-- Claim C9 witness: the exclusive-create theorem applied on an empty
filesystem with one path created twice. -/
theorem writer_exclusive_create_spec_witness :
    HotStorageWriter.new [] "accounts.hot" = .ok (⟨⟨"accounts.hot"⟩⟩, ["accounts.hot"])
  ∧ HotStorageWriter.new ["accounts.hot"] "accounts.hot"
      = .error (.FileAlreadyExists "accounts.hot") := by
  have h := (writer_exclusive_create_spec [] "accounts.hot").1 (by simp)
  exact ⟨h.1, h.2⟩

end HotStorage
